import Mathlib

/-!
Verification of the kuhi core (value algebra, builtin table, parser, evaluator)
against its specification.

Shallow embedding conventions:

* rug `Integer` is modelled as `Int`; rug `Rational` (always canonical) as `Rat`
  (`ratFrom n d` mirrors `Rational::from((n, d))` for the nonzero denominators
  the code constructs; the one zero-denominator construction the code can reach
  is modelled explicitly as a panic where it occurs).
* rug `Float` (128-bit MPFR) is modelled by the symbolic term algebra `FR`
  recording which float operations were applied; rug `Complex` likewise by `CC`.
  No claim depends on float rounding, only on which kind of value results.
* Rust panics (`todo!`, `unreachable!`, `unwrap` on `None`/`Err`,
  `unwrap_unchecked` on `None`, zero-denominator `Rational::from`) are modelled
  as `Except.error` with a `Panic` message, kept separate from the ordinary
  `RuntimeError` channel exactly as panics are separate from `Result` in Rust.
* The operand stack (Rust `Vec<Value>` pushing at the tail) is modelled as a
  `List Value` with the top of the stack first; `Vec::push`/`pop`/`last`
  correspond to cons/uncons/head.  A `Value.List` payload keeps the `Vec`
  element order (index 0 first), hence the `List.reverse` conversions at the
  scope boundary in the evaluator, mirroring `inner_env.stack = vals` and
  `Value::List(inner_env.stack)`.
* Functions whose Rust recursion is not structural carry an explicit fuel
  argument split off at the recursive descent; the wrappers supply fuel that is
  ample for every input used in the theorems, and running out of fuel is a
  distinguishable outcome, never silently a result.
-/

abbrev Panic := String

/-- `err.rs` `SyntaxError`. The `Bool` of `UnmatchedParenthesis` is documented
in the source as "true if `(`, false if `)`". -/
inductive SyntaxError where
  | InvalidSymbol : Char → SyntaxError
  | UnmatchedParenthesis : Bool → SyntaxError
  | LonelyInverse : SyntaxError
deriving Repr, DecidableEq

/-- `err.rs` `RuntimeError`.  `InvalidIotaValue` is referenced by
`builtins.rs::iota` although it does not appear in the `err.rs` enum; it is
included so the iota builtin can be translated. -/
inductive RuntimeError where
  | FunctionNotFound : Char → RuntimeError
  | ListTypeMissmatch : String → String → RuntimeError
  | ListElementSizeMissmatch : Nat → Nat → RuntimeError
  | InvalidPop : Nat → Nat → RuntimeError
  | InvalidFoldWith : Nat → RuntimeError
  | InvalidMapWith : Nat → RuntimeError
  | InvalidFilterWith : Nat → RuntimeError
  | TypeMissmatch : String → String → RuntimeError
  | ExponentTooBig : Int → RuntimeError
  | ZerothRoot : RuntimeError
  | DivideByZero : RuntimeError
  | NoInverse : RuntimeError
  | InverseOfNonFunction : RuntimeError
  | InvalidIotaValue : RuntimeError
deriving Repr, DecidableEq

/-- `InvalidPop` carries `len` (stack size) and `arity` in the source; the
first `Nat` here is `len`, the second `arity`. -/
def RuntimeError.invalidPopFields : RuntimeError → Option (Nat × Nat)
  | .InvalidPop len arity => some (len, arity)
  | _ => none

/-- Symbolic model of a rug 128-bit `Float`: a term recording the applied
operations.  `pi` is the `PI` lazy constant of `value.rs`. -/
inductive FR where
  | pi : FR
  | ofInt : Int → FR
  | ofRat : Rat → FR
  | add : FR → FR → FR
  | mul : FR → FR → FR
  | div : FR → FR → FR
  | neg : FR → FR
  | recip : FR → FR
  | sin : FR → FR
  | asin : FR → FR
  | sinh : FR → FR
  | asinh : FR → FR
  | sinPi : FR → FR
deriving Repr, DecidableEq

/-- Modelling note: syntactic zero test for the symbolic float model.  It is
exact on the constructors the claims exercise (`ofInt`, `ofRat`, `neg`) and
conservatively `false` elsewhere; no claim in this development depends on the
zero test of a compound float term. -/
def FR.isZero : FR → Bool
  | .ofInt n => n == 0
  | .ofRat q => q == 0
  | .neg x => x.isZero
  | _ => false

/-- Modelling note: best-effort sign of a symbolic float, used only by the
`Infinity × Float` arm of `Mul` (`x.signum()`), which no claim exercises. -/
def FR.sgn : FR → Int
  | .pi => 1
  | .ofInt n => n.sign
  | .ofRat q => q.num.sign
  | .neg x => - x.sgn
  | .recip x => x.sgn
  | _ => 1

/-- Symbolic model of a rug `Complex`: a term recording the applied
operations.  `ofRats re im` is `Complex::with_val(128, (re, im))` from two
rationals, the only way the parser builds complex literals. -/
inductive CC where
  | ofRats : Rat → Rat → CC
  | add : CC → CC → CC
  | mul : CC → CC → CC
  | neg : CC → CC
  | recip : CC → CC
  | sin : CC → CC
  | asin : CC → CC
  | sinh : CC → CC
  | asinh : CC → CC
  | addInt : Int → CC → CC
  | mulInt : Int → CC → CC
  | addRat : Rat → CC → CC
  | mulRat : Rat → CC → CC
  | addFloat : FR → CC → CC
  | mulFloat : FR → CC → CC
deriving Repr, DecidableEq

/-- Modelling note: syntactic zero test for the symbolic complex model,
mirroring `FR.isZero`; no claim depends on it. -/
def CC.isZero : CC → Bool
  | .ofRats a b => a == 0 && b == 0
  | .neg x => x.isZero
  | _ => false

/-- `Rational::from((n, d))`: the canonical rational n/d.  rug panics when the
denominator is zero; every construction site in the code either has a
syntactically nonzero denominator or (in `Value::pow`) is modelled with an
explicit panic check, so the `d = 0` case of this total function is never
relied on. -/
def ratFrom (n d : Int) : Rat := (n : Rat) / (d : Rat)

/-- Type tags as returned by `Value::types` (a `Vec<String>` in the source).
These abbreviations are used in the signatures and bodies of `Value.*`
definitions, where the `Value.String` and `Value.List` constructors would
otherwise shadow the standard library types of the same name. -/
abbrev TypeTag := String

abbrev Tags := List String

/-- `Vec<String>::join(", ")`. -/
def joinTags (l : Tags) : TypeTag := String.intercalate ", " l

/-- `value.rs` `Value`.  The `Function` variant holds a function pointer in the
source, which only its `types()` tag can observe; it is modelled as a bare
constructor.  `Value::List` keeps the source `Vec` order (index 0 first). -/
inductive Value where
  | Integer : Int → Value
  | Rational : Rat → Value
  | Complex : CC → Value
  | Float : FR → Value
  | String : String → Value
  | List : List Value → Value
  | Scope : List Value → Value
  | Function : Value
  | Infinity : Int → Value
  | Undefined : Value
  | Pi : Rat → Int → Value
  | E : Rat → Int → Value
  | Epsilon : Int → Value
  | InvalidState : RuntimeError → Value

abbrev Stack := List Value

/-- `Value::stronger_number_type`: Complex > Float > Rational > Integer, with
`unreachable!()` (a panic) when neither tag is one of the four. -/
def strongerNumberType (a b : String) : Except Panic String :=
  if a = "Complex" then .ok "Complex"
  else if b = "Complex" then .ok "Complex"
  else if a = "Float" then .ok "Float"
  else if b = "Float" then .ok "Float"
  else if a = "Rational" then .ok "Rational"
  else if b = "Rational" then .ok "Rational"
  else if a = "Integer" then .ok "Integer"
  else if b = "Integer" then .ok "Integer"
  else .error "unreachable: stronger number type"

/-- `mapExcept f l` sequences `f` over `l`, stopping at the first error:
the shape of a Rust `for` loop whose body can fail or panic. -/
def mapExcept (f : α → Except ε β) : List α → Except ε (List β)
  | [] => .ok []
  | x :: rest => do
    let y ← f x
    let ys ← mapExcept f rest
    .ok (y :: ys)

/-- Reduction lemma for the `Except` bind used throughout the embedding. -/
@[simp] theorem ok_bind (a : α) (f : α → Except ε β) : (Except.ok a >>= f) = f a := rfl

/-- Reduction lemma for the `Except` bind used throughout the embedding. -/
@[simp] theorem error_bind (e : ε) (f : α → Except ε β) :
    ((Except.error e : Except ε α) >>= f) = Except.error e := rfl

/-- The zipped element-type loop inside the `(List, List)` arm of
`validate_list`, parameterized by the recursive `types` function; its only
observable effects are the panics it can raise (its `inner_type` assignment
writes a dead local in the source). -/
def zipTypeCheckW (tf : Value → Except Panic Tags) : List Value → List Value → Except Panic Unit
  | [], _ => .ok ()
  | _ :: _, [] => .ok ()
  | a :: as_, b :: bs => do
    let ta ← tf a
    let tb ← tf b
    if ta.contains "Number" && tb.contains "Number" then
      match ta.getLast?, tb.getLast? with
      | some x, some y => do
        let _ ← strongerNumberType x y
        zipTypeCheckW tf as_ bs
      | _, _ => .error "unwrap on empty types"
    else
      zipTypeCheckW tf as_ bs

/-- The `try_reduce` fold inside `validate_list`: only pairs of `List` values
are accepted (anything else is `todo!()`, a panic); list size mismatch is the
`ListElementSizeMissmatch` error; the accumulator stays the first list. -/
def validateReduceW (tf : Value → Except Panic Tags) (acc : Value) :
    List Value → Except Panic (Except RuntimeError Unit)
  | [] => .ok (.ok ())
  | v :: rest =>
    match acc, v with
    | .List a, .List b =>
      if a.length ≠ b.length then
        .ok (.error (.ListElementSizeMissmatch a.length b.length))
      else do
        let _ ← zipTypeCheckW tf a b
        validateReduceW tf (.List a) rest
    | _, _ => .error "not implemented: list validation for non-list values"

/-- `Value::validate_list` (parameterized by the recursive `types`): runs the
`try_reduce` fold and finally returns the constant `"Integer"` regardless. -/
def validateListW (tf : Value → Except Panic Tags) :
    Value → Except Panic (Except RuntimeError TypeTag)
  | .List (v :: rest) => do
    match ← validateReduceW tf v rest with
    | .error e => .ok (.error e)
    | .ok () => .ok (.ok "Integer")
  | _ => .ok (.ok "Integer")

/-- `Value::types`, with explicit fuel for the descent into nested list
elements (`validate_list` recurses into `types` of the elements); only the
`List` arm consumes fuel.  `types()` of `InvalidState` is `unreachable!()`,
and the `unwrap()` of `validate_list` in the `List` arm panics when
validation fails. -/
def typesF : Nat → Value → Except Panic Tags
  | _, .Integer _ => .ok ["Number", "Integer"]
  | _, .Rational _ => .ok ["Number", "Rational"]
  | _, .Complex _ => .ok ["Number", "Complex"]
  | _, .Float _ => .ok ["Number", "Float"]
  | _, .String _ => .ok ["List", "String"]
  | fuel, .List vals =>
    match fuel with
    | 0 => .error "modelling fuel exhausted"
    | fuel + 1 => do
      match ← validateListW (typesF fuel) (.List vals) with
      | .error _ => .error "unwrap on validate list error"
      | .ok t => .ok ["List", t]
  | _, .Scope _ => .ok []
  | _, .Function => .ok ["Function"]
  | _, .Infinity _ => .ok ["Number", "Infinity"]
  | _, .Undefined => .ok ["Number", "Undefined"]
  | _, .Pi _ _ => .ok ["Number", "Float", "Pi"]
  | _, .E _ _ => .ok ["Number", "Float", "E"]
  | _, .Epsilon _ => .ok ["Number", "Epsilon"]
  | _, .InvalidState _ => .error "unreachable: types of invalid state"

/-- Fuel for the fuelled recursions over nested list values.  The fuel is
consumed only when descending into a nested `Value.List`, so any value nested
less than `modelFuel` deep — far beyond anything the claims build, and beyond
what the recursive Rust code could execute without exhausting its own call
stack — computes exactly; deeper values yield the distinguishable
fuel-exhaustion panic, never a wrong result. -/
def modelFuel : Nat := 1000

/-- `Value::types` with ample fuel. -/
def Value.types (v : Value) : Except Panic Tags := typesF modelFuel v

/-- `Value::validate_list` with ample fuel. -/
def Value.validate_list (v : Value) : Except Panic (Except RuntimeError TypeTag) :=
  validateListW (fun x => typesF modelFuel x) v

/-- `Value::is_zero`.  The `InvalidState` arm is `unreachable!` and the final
catch-all (`String`/`List`/`Scope`/`Function`) is `todo!()`, both panics. -/
def Value.is_zero : Value → Except Panic Bool
  | .Integer n => .ok (decide (n = 0))
  | .Rational r => .ok (decide (r = 0))
  | .Complex c => .ok c.isZero
  | .Float x => .ok x.isZero
  | .Infinity _ => .ok false
  | .Undefined => .ok false
  | .Pi r _ => .ok (decide (r = 0))
  | .E r _ => .ok (decide (r = 0))
  | .Epsilon _ => .ok false
  | .InvalidState _ => .error "unreachable: invalid state should never be used"
  | _ => .error "not implemented: is zero"

/-- The `InvalidState(TypeMissmatch)` value built by the guards of `Add`,
`Value::pow` and `Value::root`: expected `"Number"`, got the joined type tags
of both operands. -/
def typeMismatch2 (a b : Value) : Except Panic Value := do
  let ta ← a.types
  let tb ← b.types
  .ok (.InvalidState (.TypeMissmatch "Number"
    (joinTags ta ++ " and " ++ joinTags tb)))

/-- `Value::reciprocal`. -/
def Value.reciprocal (v : Value) : Except Panic Value := do
  let tv ← v.types
  if (tv.contains "Number") = false then
    .ok (.InvalidState (.TypeMissmatch "Number" (joinTags tv)))
  else do
    let z ← v.is_zero
    if z then
      .ok (.InvalidState .DivideByZero)
    else
      match v with
      | .Integer n => .ok (.Rational (ratFrom 1 n))
      | .Rational r => .ok (.Rational r⁻¹)
      | .Complex c => .ok (.Complex (.recip c))
      | .Float x => .ok (.Float (.recip x))
      | .Infinity s => .ok (.Epsilon s)
      | .Epsilon s => .ok (.Infinity s)
      | .Pi r e => .ok (.Pi r⁻¹ (-e))
      | .E r e => .ok (.E r⁻¹ (-e))
      | inv => do
        let ti ← inv.types
        .ok (.InvalidState (.TypeMissmatch "Numeric"
          (joinTags ti.reverse)))

/-- `Value::pow`, with fuel for the element-wise broadcast over lists (only
the `List` arm consumes fuel).  In the negative-exponent arm the source
computes `n.pow(k)` and then `Rational::from((1, n^k))`, which panics in rug
when that denominator is zero (only possible for `n = 0`); the exponent
range checks mirror `to_u32` (some iff the value fits in 0..2^32). -/
def powF : Nat → Value → Value → Except Panic Value
  | fuel, a, b =>
    match a, b with
    | .List xs, x => do
      let tx ← x.types
      if tx.contains "Number" then
        match fuel with
        | 0 => .error "modelling fuel exhausted"
        | fuel + 1 => do
          let rs ← mapExcept (fun v => powF fuel v b) xs
          .ok (.List rs)
      else
        typeMismatch2 a b
    | .Integer n, .Integer m =>
      -- 4294967296 = 2^32; `to_u32` is `some` iff the value is in 0..2^32
      if m < 0 then
        if -m < 4294967296 then
          let p := n ^ (-m).toNat
          if p = 0 then
            .error "panic: zero denominator in rational construction"
          else
            .ok (.Rational (ratFrom 1 p))
        else
          .ok (.InvalidState (.ExponentTooBig m))
      else
        if m < 4294967296 then
          .ok (.Integer (n ^ m.toNat))
        else
          .ok (.InvalidState (.ExponentTooBig m))
    | .Rational r, .Integer n =>
      -- to_i32 (some iff -2147483648 ≤ n < 2147483648), then to_u32 fallback
      if -2147483648 ≤ n ∧ n < 2147483648 then
        if n < 0 then
          if r = 0 then
            .error "panic: division by zero in rational pow"
          else
            .ok (.Rational ((r ^ (-n).toNat)⁻¹))
        else
          .ok (.Rational (r ^ n.toNat))
      else if 0 ≤ n ∧ n < 4294967296 then
        .ok (.Rational (r ^ n.toNat))
      else
        .ok (.InvalidState (.ExponentTooBig n))
    | _, _ => typeMismatch2 a b

/-- `Value::pow` with ample fuel for the list broadcast. -/
def Value.pow (a b : Value) : Except Panic Value := powF modelFuel a b

/-- `impl Neg for Value`. -/
def Value.neg : Value → Except Panic Value
  | .Integer n => .ok (.Integer (-n))
  | .Rational r => .ok (.Rational (-r))
  | .Float x => .ok (.Float (.neg x))
  | .Complex c => .ok (.Complex (.neg c))
  | .Infinity s => .ok (.Infinity (-s))
  | .Epsilon s => .ok (.Epsilon (-s))
  | .Pi r e => .ok (.Pi (-r) e)
  | .E r e => .ok (.E (-r) e)
  | inv => do
    let ti ← inv.types
    .ok (.InvalidState (.TypeMissmatch "Numeric"
      (joinTags ti.reverse)))

/-- The float approximation of a pi-multiple used by the `Pi` arms of `Add`
and `Mul`: `(numer/denom) × (PI or PI⁻¹)`, with `unreachable!()` for any other
exponent sign. -/
def piApprox (r : Rat) (esign : Int) : Except Panic FR :=
  if esign = 1 then
    .ok (.mul (.div (.ofInt r.num) (.ofInt r.den)) .pi)
  else if esign = -1 then
    .ok (.mul (.div (.ofInt r.num) (.ofInt r.den)) (.recip .pi))
  else
    .error "unreachable: pi exponent sign"

/-- `impl Add for Value`, arms in source order. -/
def Value.add (a b : Value) : Except Panic Value := do
  let ta ← a.types
  let tb ← b.types
  if (ta.contains "Number" && tb.contains "Number") = false then
    .ok (.InvalidState (.TypeMissmatch "Number"
      (joinTags ta ++ " and " ++ joinTags tb)))
  else
    match a, b with
    | .Integer n, .Integer m => .ok (.Integer (n + m))
    | .Rational r, .Rational s => .ok (.Rational (r + s))
    | .Complex c, .Complex d => .ok (.Complex (.add c d))
    | .Integer n, .Rational r | .Rational r, .Integer n => .ok (.Rational ((n : Rat) + r))
    | .Integer n, .Complex c | .Complex c, .Integer n => .ok (.Complex (.addInt n c))
    | .Rational r, .Complex c | .Complex c, .Rational r => .ok (.Complex (.addRat r c))
    | .Float x, .Float y => .ok (.Float (.add x y))
    | .Float x, .Integer n | .Integer n, .Float x => .ok (.Float (.add x (.ofInt n)))
    | .Float x, .Rational r | .Rational r, .Float x =>
      .ok (.Float (.add x (.div (.ofInt r.num) (.ofInt r.den))))
    | .Infinity sa, .Infinity sb =>
      if sa = sb then .ok (.Infinity sa) else .ok .Undefined
    | .Infinity sa, .Integer _ | .Integer _, .Infinity sa
    | .Infinity sa, .Rational _ | .Rational _, .Infinity sa
    | .Infinity sa, .Float _ | .Float _, .Infinity sa => .ok (.Infinity sa)
    | .Infinity _, .Complex _ | .Complex _, .Infinity _ =>
      .error "not implemented: Infinity plus Complex"
    | .Epsilon sa, .Epsilon sb =>
      if sa.sign = sb.sign then .ok (.Epsilon sa) else .ok .Undefined
    | .Epsilon _, other | other, .Epsilon _ => .ok other
    | .Undefined, _ | _, .Undefined => .ok .Undefined
    | .Pi r e, .Integer n | .Integer n, .Pi r e => do
      let t ← piApprox r e
      .ok (.Float (.add t (.ofInt n)))
    | .Pi r e, .Rational s | .Rational s, .Pi r e => do
      let t ← piApprox r e
      .ok (.Float (.add t (.div (.ofInt s.num) (.ofInt s.den))))
    | .Pi r e, .Complex c | .Complex c, .Pi r e => do
      let t ← piApprox r e
      .ok (.Complex (.addFloat t c))
    | _, _ => .error "not implemented: Add"

/-- `impl Mul for Value`, arms in source order (no type guard, unlike `Add`). -/
def Value.mul (a b : Value) : Except Panic Value :=
  match a, b with
  | .Integer n, .Integer m => .ok (.Integer (n * m))
  | .Rational r, .Rational s => .ok (.Rational (r * s))
  | .Float x, .Float y => .ok (.Float (.mul x y))
  | .Complex c, .Complex d => .ok (.Complex (.mul c d))
  | .Integer n, .Rational r | .Rational r, .Integer n => .ok (.Rational ((n : Rat) * r))
  | .Integer n, .Complex c | .Complex c, .Integer n => .ok (.Complex (.mulInt n c))
  | .Rational r, .Complex c | .Complex c, .Rational r => .ok (.Complex (.mulRat r c))
  | .Float x, .Integer n | .Integer n, .Float x => .ok (.Float (.mul x (.ofInt n)))
  | .Float x, .Rational r | .Rational r, .Float x =>
    .ok (.Float (.div (.mul x (.ofInt r.num)) (.ofInt r.den)))
  | .Float x, .Complex c | .Complex c, .Float x => .ok (.Complex (.mulFloat x c))
  | .Infinity sa, .Infinity sb => .ok (.Infinity (sa * sb))
  | .Infinity sa, .Integer n | .Integer n, .Infinity sa =>
    if 0 < n then .ok (.Infinity sa)
    else if n < 0 then .ok (.Infinity (-sa))
    else .ok .Undefined
  | .Infinity sa, .Rational r | .Rational r, .Infinity sa =>
    if 0 < r then .ok (.Infinity sa)
    else if r < 0 then .ok (.Infinity (-sa))
    else .ok .Undefined
  | .Infinity sa, .Float x | .Float x, .Infinity sa =>
    if x.isZero then .ok .Undefined else .ok (.Infinity (sa * x.sgn))
  | .Infinity _, .Complex _ | .Complex _, .Infinity _ =>
    .error "not implemented: Infinity times Complex"
  | .Epsilon sa, .Epsilon sb => .ok (.Epsilon (sa * sb))
  | .Infinity _, .Epsilon _ | .Epsilon _, .Infinity _ => .ok .Undefined
  | .Epsilon sa, .Integer n | .Integer n, .Epsilon sa => .ok (.Integer (n * sa))
  | .Epsilon sa, .Rational r | .Rational r, .Epsilon sa => .ok (.Rational (r * (sa : Rat)))
  | .Epsilon sa, .Float x | .Float x, .Epsilon sa => .ok (.Float (.mul x (.ofInt sa)))
  | .Epsilon sa, .Complex z | .Complex z, .Epsilon sa => .ok (.Complex (.mulInt sa z))
  | .Undefined, _ | _, .Undefined => .ok .Undefined
  | .Pi r e, .Integer n | .Integer n, .Pi r e => .ok (.Pi (r * (n : Rat)) e)
  | .Pi r e, .Rational s | .Rational s, .Pi r e => .ok (.Pi (r * s) e)
  | .Pi r e, .Complex c | .Complex c, .Pi r e => do
    let t ← piApprox r e
    .ok (.Complex (.mulFloat t c))
  | _, _ => .error "not implemented: Mul"

/-- The two error channels of a builtin invocation: an ordinary
`RuntimeError` result, or a Rust panic. -/
inductive BErr where
  | panic : Panic → BErr
  | err : RuntimeError → BErr
deriving Repr, DecidableEq

/-- `builtins.rs` `Func`: a builtin receives the whole stack and returns a
whole stack or fails. -/
abbrev Func := Stack → Except BErr Stack

namespace Builtins

/-- `__pop_n` uses `unwrap_unchecked`; callers guarantee sufficient depth via
the arity check in `Builtin::call`, so the underflow arms below model the
undefined behavior of popping an empty `Vec` as a panic. -/
def dup : Func := fun stack =>
  match stack with
  | x :: rest => .ok (x :: x :: rest)
  | _ => .error (.panic "undefined behavior: unwrap_unchecked on empty stack")

def pop : Func := fun stack =>
  match stack with
  | _ :: rest => .ok rest
  | _ => .error (.panic "undefined behavior: unwrap_unchecked on empty stack")

/-- `flip`: pops `y` (top) and `x`, pushes `y` then `x`, leaving `x` on top —
the top two values exchanged. -/
def flip : Func := fun stack =>
  match stack with
  | y :: x :: rest => .ok (x :: y :: rest)
  | _ => .error (.panic "undefined behavior: unwrap_unchecked on empty stack")

/-- `roll`: pops `z` (top), `y`, `x` and pushes `x`, `y`, `z` — which restores
the original order, so the builtin as written is the identity on a stack of
depth at least 3. -/
def roll : Func := fun stack =>
  match stack with
  | z :: y :: x :: rest => .ok (z :: y :: x :: rest)
  | _ => .error (.panic "undefined behavior: unwrap_unchecked on empty stack")

def add : Func := fun stack =>
  match stack with
  | y :: x :: rest =>
    match Value.add x y with
    | .error p => .error (.panic p)
    | .ok v => .ok (v :: rest)
  | _ => .error (.panic "undefined behavior: unwrap_unchecked on empty stack")

/-- `sub` pushes `x + -y`. -/
def sub : Func := fun stack =>
  match stack with
  | y :: x :: rest =>
    match Value.neg y with
    | .error p => .error (.panic p)
    | .ok ny =>
      match Value.add x ny with
      | .error p => .error (.panic p)
      | .ok v => .ok (v :: rest)
  | _ => .error (.panic "undefined behavior: unwrap_unchecked on empty stack")

def mul : Func := fun stack =>
  match stack with
  | y :: x :: rest =>
    match Value.mul x y with
    | .error p => .error (.panic p)
    | .ok v => .ok (v :: rest)
  | _ => .error (.panic "undefined behavior: unwrap_unchecked on empty stack")

/-- `div` pushes `x * y.reciprocal()`. -/
def div : Func := fun stack =>
  match stack with
  | y :: x :: rest =>
    match Value.reciprocal y with
    | .error p => .error (.panic p)
    | .ok ry =>
      match Value.mul x ry with
      | .error p => .error (.panic p)
      | .ok v => .ok (v :: rest)
  | _ => .error (.panic "undefined behavior: unwrap_unchecked on empty stack")

def pow : Func := fun stack =>
  match stack with
  | y :: x :: rest =>
    match Value.pow x y with
    | .error p => .error (.panic p)
    | .ok v => .ok (v :: rest)
  | _ => .error (.panic "undefined behavior: unwrap_unchecked on empty stack")

/-- The `root` builtin pushes `x.pow(&-y)`. -/
def root : Func := fun stack =>
  match stack with
  | y :: x :: rest =>
    match Value.neg y with
    | .error p => .error (.panic p)
    | .ok ny =>
      match Value.pow x ny with
      | .error p => .error (.panic p)
      | .ok v => .ok (v :: rest)
  | _ => .error (.panic "undefined behavior: unwrap_unchecked on empty stack")

/-- The single-value core of the `sin` builtin.  The `List` arm of the source
recurses by calling `sin` on a fresh singleton stack per element and taking
the first (only) result, which is exactly this function applied element-wise;
only that arm consumes fuel. -/
def sinOneF : Nat → Value → Except BErr Value
  | fuel, v =>
    match v with
    | .Integer x => .ok (.Float (.sin (.ofInt x)))
    | .Rational x => .ok (.Float (.sin (.ofRat x)))
    | .Float x => .ok (.Float (.sin x))
    | .Complex x => .ok (.Complex (.sin x))
    | .Pi r s =>
      if s = 1 then .ok (.Float (.sinPi (.ofRat r)))
      else if s = -1 then .ok (.Float (.sin (.mul (.ofRat r) (.recip .pi))))
      else .error (.panic "unreachable: pi exponent sign")
    | .List vals =>
      match fuel with
      | 0 => .error (.panic "modelling fuel exhausted")
      | fuel + 1 => do
        let rs ← mapExcept (fun x => sinOneF fuel x) vals
        .ok (.List rs)
    | x =>
      match Value.types x with
      | .error p => .error (.panic p)
      | .ok tx => .error (.err (.TypeMissmatch "Number" (joinTags tx)))

def sin : Func := fun stack =>
  match stack with
  | x :: rest =>
    match sinOneF modelFuel x with
    | .error e => .error e
    | .ok v => .ok (v :: rest)
  | _ => .error (.panic "undefined behavior: unwrap_unchecked on empty stack")

/-- The single-value core of the `asin` builtin (no `List` arm in the source). -/
def asinOne (v : Value) : Except BErr Value :=
  match v with
  | .Integer x => .ok (.Float (.asin (.ofInt x)))
  | .Rational x => .ok (.Float (.asin (.ofRat x)))
  | .Float x => .ok (.Float (.asin x))
  | .Complex x => .ok (.Complex (.asin x))
  | .Pi r s =>
    if s = 1 then .ok (.Float (.asin (.mul (.ofRat r) .pi)))
    else if s = -1 then .ok (.Float (.asin (.mul (.ofRat r) (.recip .pi))))
    else .error (.panic "unreachable: pi exponent sign")
  | x =>
    match Value.types x with
    | .error p => .error (.panic p)
    | .ok tx => .error (.err (.TypeMissmatch "Number" (joinTags tx)))

def asin : Func := fun stack =>
  match stack with
  | x :: rest =>
    match asinOne x with
    | .error e => .error e
    | .ok v => .ok (v :: rest)
  | _ => .error (.panic "undefined behavior: unwrap_unchecked on empty stack")

def sinhOne (v : Value) : Except BErr Value :=
  match v with
  | .Integer x => .ok (.Float (.sinh (.ofInt x)))
  | .Rational x => .ok (.Float (.sinh (.ofRat x)))
  | .Float x => .ok (.Float (.sinh x))
  | .Complex x => .ok (.Complex (.sinh x))
  | x =>
    match Value.types x with
    | .error p => .error (.panic p)
    | .ok tx => .error (.err (.TypeMissmatch "Number" (joinTags tx)))

def sinh : Func := fun stack =>
  match stack with
  | x :: rest =>
    match sinhOne x with
    | .error e => .error e
    | .ok v => .ok (v :: rest)
  | _ => .error (.panic "undefined behavior: unwrap_unchecked on empty stack")

def asinhOne (v : Value) : Except BErr Value :=
  match v with
  | .Integer x => .ok (.Float (.asinh (.ofInt x)))
  | .Rational x => .ok (.Float (.asinh (.ofRat x)))
  | .Float x => .ok (.Float (.asinh x))
  | .Complex x => .ok (.Complex (.asinh x))
  | x =>
    match Value.types x with
    | .error p => .error (.panic p)
    | .ok tx => .error (.err (.TypeMissmatch "Number" (joinTags tx)))

def asinh : Func := fun stack =>
  match stack with
  | x :: rest =>
    match asinhOne x with
    | .error e => .error e
    | .ok v => .ok (v :: rest)
  | _ => .error (.panic "undefined behavior: unwrap_unchecked on empty stack")

/-- `iota`: requires a positive Integer fitting `u64` and pushes the list
`[1, ..., n]`. -/
def iota : Func := fun stack =>
  match stack with
  | x :: rest =>
    match x with
    | .Integer n =>
      if n ≤ 0 then .error (.err .InvalidIotaValue)
      else if n < 18446744073709551616 then
        -- 18446744073709551616 = 2^64; `to_u64` range
        .ok (.List ((List.range n.toNat).map (fun k => Value.Integer (k + 1))) :: rest)
      else .error (.err .InvalidIotaValue)
    | _ =>
      match Value.types x with
      | .error p => .error (.panic p)
      | .ok tx => .error (.err (.TypeMissmatch "Integer" (joinTags tx)))
  | _ => .error (.panic "undefined behavior: unwrap_unchecked on empty stack")

end Builtins

/-- `builtins.rs` `Builtin`: forward action, inverse action, arity. -/
structure Builtin where
  action : Func
  inverse : Func
  arity : Nat

def Builtin.new (action inverse : Func) (arity : Nat) : Builtin :=
  ⟨action, inverse, arity⟩

/-- `Builtin::call`: the arity check precedes the action. -/
def Builtin.call (b : Builtin) (stack : Stack) : Except BErr Stack :=
  if b.arity > stack.length then
    .error (.err (.InvalidPop stack.length b.arity))
  else
    b.action stack

/-- `Builtin::call_inverse`. -/
def Builtin.call_inverse (b : Builtin) (stack : Stack) : Except BErr Stack :=
  if b.arity > stack.length then
    .error (.err (.InvalidPop stack.length b.arity))
  else
    b.inverse stack

/-- A function with no inverse: `|_| Err(RuntimeError::NoInverse)`. -/
def noInverseFn : Func := fun _ => .error (.err .NoInverse)

/-- The `BUILTINS` table of `builtins.rs`, keyed by the exact characters of the
source.  Note that the swap entry is keyed by `↕` (U+2195), not by `↔`
(U+2194), which is the character the parser and the evaluator use. -/
def BUILTINS : Char → Option Builtin
  | '.' => some (Builtin.new Builtins.dup noInverseFn 1)
  | ',' => some (Builtin.new Builtins.pop noInverseFn 1)
  | '↕' => some (Builtin.new Builtins.flip Builtins.flip 2)
  | '↺' => some (Builtin.new Builtins.roll Builtins.roll 3)
  | '+' => some (Builtin.new Builtins.add Builtins.sub 2)
  | '-' => some (Builtin.new Builtins.sub Builtins.add 2)
  | '×' => some (Builtin.new Builtins.mul Builtins.div 2)
  | '÷' => some (Builtin.new Builtins.div Builtins.mul 2)
  | 'ⁿ' => some (Builtin.new Builtins.pow Builtins.root 2)
  | '√' => some (Builtin.new Builtins.root Builtins.pow 2)
  | '◯' => some (Builtin.new Builtins.sin Builtins.asin 1)
  | 'ⓔ' => some (Builtin.new Builtins.sinh Builtins.asinh 1)
  | 'ι' => some (Builtin.new Builtins.iota noInverseFn 1)
  | _ => none

/-- `parser.rs` `Loc`.  Note `end` is a Lean keyword, hence the quoted field
name. -/
structure Loc where
  start : Nat
  «end» : Nat
  line : Nat
  column : Nat
deriving Repr, DecidableEq

/-- `parser.rs` `Token`.  `UnfinishedList` is `_UnfinishedList` in the source. -/
inductive Token where
  | Integer : Int → Token
  | Rational : Rat → Token
  | Complex : CC → Token
  | Infinity : Token
  | Epsilon : Token
  | Pi : Rat → Token
  | E : Rat → Int → Token
  | List : List Token → Token
  | UnfinishedList : List (Token × Loc) → Token
  | Scope : List (Token × Loc) → Token
  | Dup : Token
  | Pop : Token
  | Flip : Token
  | Minus : Token
  | Function : List (Token × Loc) → Token
  | FunctionCall : Char → Token
  | Inverse : Token → Loc → Token
  | Spacing : Token
  | InvalidState : Token

/-- `impl From<Token> for Value`: literal tokens become values; anything else
is `todo!()` (a panic). -/
def tokenToValue : Token → Except Panic Value
  | .Integer n => .ok (.Integer n)
  | .Rational r => .ok (.Rational r)
  | .Complex c => .ok (.Complex c)
  | .Pi r => .ok (.Pi r 1)
  | _ => .error "not implemented: token to value"

/-- The error channel of `Env::run`: a `(RuntimeError, Loc)` pair as in the
source, or a Rust panic. -/
inductive RunErr where
  | panic : Panic → RunErr
  | err : RuntimeError → Loc → RunErr
deriving Repr, DecidableEq

abbrev RunRes := Except RunErr Stack

/-- The per-step poison check at the end of the `Env::run` loop: if the top of
the stack is `InvalidState`, evaluation halts with that error at the current
token's span.  (`continue`d steps — `Spacing` and a scope returning zero
values — skip this check, as in the source.) -/
def checkTop (stack : Stack) (loc : Loc) : RunRes :=
  match stack with
  | .InvalidState e :: _ => .error (.err e loc)
  | _ => .ok stack

/-- `Env::run`, fuelled.  The token list is walked in reverse (`.iter().rev()`),
so the recursion first runs the tail of the list (the tokens to the right) and
then executes the head token against the resulting stack.  One unit of fuel is
consumed per processed token and per scope descent. -/
def runF : Nat → List (Token × Loc) → Stack → RunRes
  | 0, _, _ => .error (.panic "modelling fuel exhausted")
  | fuel + 1, ts, stack0 =>
    match ts with
    | [] => .ok stack0
    | (t, loc) :: front =>
      match runF fuel front stack0 with
      | .error e => .error e
      | .ok stack =>
        match t with
        | .Spacing => .ok stack
        | .Integer n => checkTop (.Integer n :: stack) loc
        | .Rational r => checkTop (.Rational r :: stack) loc
        | .Complex c => checkTop (.Complex c :: stack) loc
        | .List vals =>
          match mapExcept tokenToValue vals with
          | .error p => .error (.panic p)
          | .ok vs => checkTop (.List vs :: stack) loc
        | .UnfinishedList _ => .error (.panic "unreachable: unfinished list")
        | .Scope op =>
          match stack with
          | [] => .error (.err (.InvalidPop 0 1) loc)
          | top :: rest =>
            match top with
            | .List vals =>
              match runF fuel op vals.reverse with
              | .error e => .error e
              | .ok inner =>
                match inner with
                | [] => .ok rest
                | [v] => checkTop (v :: rest) loc
                | vs => checkTop (.List vs.reverse :: rest) loc
            | _ => .error (.panic "not implemented: scope for non-list values")
        | .Infinity => checkTop (.Infinity 1 :: stack) loc
        | .Epsilon => checkTop (.Epsilon 1 :: stack) loc
        | .Pi r => checkTop (.Pi r 1 :: stack) loc
        | .E r p => checkTop (.E r p :: stack) loc
        | .Dup =>
          match stack with
          | v :: rest => checkTop (v :: v :: rest) loc
          | [] => .error (.err (.InvalidPop 0 1) loc)
        | .Pop =>
          match stack with
          | _ :: rest => checkTop rest loc
          | [] => .error (.err (.InvalidPop 0 1) loc)
        | .Flip =>
          -- `unsafe { BUILTINS.get(&'↔').unwrap_unchecked() }`: the table is
          -- keyed by '↕', so this lookup misses and the unchecked unwrap of
          -- `None` is undefined behavior, modelled as a panic.
          match BUILTINS '↔' with
          | none => .error (.panic "undefined behavior: unwrap_unchecked on None")
          | some b =>
            match b.call stack with
            | .error (.panic p) => .error (.panic p)
            | .error (.err e) => .error (.err e loc)
            | .ok stack2 => checkTop stack2 loc
        | .Minus =>
          match stack with
          | v :: rest =>
            match Value.neg v with
            | .error p => .error (.panic p)
            | .ok nv => checkTop (nv :: rest) loc
          | [] => .error (.err (.InvalidPop 0 1) loc)
        | .FunctionCall c =>
          match BUILTINS c with
          | some b =>
            match b.call stack with
            | .error (.panic p) => .error (.panic p)
            | .error (.err e) => .error (.err e loc)
            | .ok stack2 => checkTop stack2 loc
          | none => .error (.err (.FunctionNotFound c) loc)
        | .Function _ => .error (.panic "not implemented: function application")
        | .Inverse tok iloc =>
          match tok with
          | .FunctionCall c =>
            match BUILTINS c with
            | some b =>
              match b.call_inverse stack with
              | .error (.panic p) => .error (.panic p)
              | .error (.err e) => .error (.err e iloc)
              | .ok stack2 => checkTop stack2 loc
            | none => .error (.err (.FunctionNotFound c) iloc)
          | _ => .error (.err .InverseOfNonFunction iloc)
        | .InvalidState => .error (.panic "unreachable: invalid state token")

namespace Env

/-- `Env::run` on a fresh environment, with ample fuel (well beyond the token
counts and nesting any theorem below builds). -/
def run (ts : List (Token × Loc)) (stack : Stack) : RunRes := runF 1000000 ts stack

end Env

/-- The result of `parse` (and of the raw scanning loop): the token sequence
with the final cursor, or `(SyntaxError, Loc, partial tokens)` as in the
source.  `nofuel` is the distinguishable fuel-exhaustion outcome of the
fuelled model; `parse` supplies fuel that covers its input. -/
inductive PRes where
  | ok : List (Token × Loc) → Loc → PRes
  | err : SyntaxError → Loc → List (Token × Loc) → PRes
  | nofuel : PRes

abbrev PErr := SyntaxError × Loc × List (Token × Loc)

/-- `to_digit(10)` on a character already known to be a decimal digit. -/
def digitVal (c : Char) : Int := (c.toNat - 48 : Nat)

/-- The `loc.end += 1; loc.column += 1` idiom of the literal-scanning loops. -/
def Loc.bump1 (l : Loc) : Loc := {l with «end» := l.«end» + 1, column := l.column + 1}

/-- The cursor advance at the end of each main-loop iteration:
`loc.end += c.len_utf8(); loc.start = loc.end; loc.column += 1;`.
Note that this adds the UTF-8 byte length of the character, while the
literal-scanning loops add 1 per character. -/
def advance (c : Char) (l : Loc) : Loc :=
  { l with
    start := l.«end» + c.utf8Size
    «end» := l.«end» + c.utf8Size
    column := l.column + 1 }

/-- `while let Some('0'..='9') = chars.peek()` digit-run accumulation. -/
def scanDigits : Int → Loc → List Char → Int × Loc × List Char
  | n, loc, c :: rest =>
    if c.isDigit then scanDigits (n * 10 + digitVal c) loc.bump1 rest
    else (n, loc, c :: rest)
  | n, loc, [] => (n, loc, [])

/-- The fractional-part loop: accumulates decimal digits and the power-of-ten
denominator. -/
def scanDecimal : Int → Int → Loc → List Char → Int × Int × Loc × List Char
  | dec, den, loc, c :: rest =>
    if c.isDigit then scanDecimal (dec * 10 + digitVal c) (den * 10) loc.bump1 rest
    else (dec, den, loc, c :: rest)
  | dec, den, loc, [] => (dec, den, loc, [])

/-- The previous-token match of the `'i'` branch: an immediately preceding
Integer/Rational literal is popped and becomes the real part (its span start
absorbed); any other previous token — including the transient `Spacing` pushed
for whitespace — leaves the token list unchanged and defaults the real part to
`Rational::from((0, 1))`. -/
def iRealPrev : List (Token × Loc) → Loc → Rat × List (Token × Loc) × Loc
  | (Token.Integer n, ploc) :: rest, loc =>
    (ratFrom n 1, rest, {loc with start := ploc.start, column := ploc.column})
  | (Token.Rational r, ploc) :: rest, loc =>
    (r, rest, {loc with start := ploc.start, column := ploc.column})
  | toks, loc => (ratFrom 0 1, toks, loc)

/-- The previous-token match of the `'π'` branch: like `iRealPrev` but the
default multiplier is `Rational::from((1, 1))`. -/
def piTimesPrev : List (Token × Loc) → Loc → Rat × List (Token × Loc) × Loc
  | (Token.Integer n, ploc) :: rest, loc =>
    (ratFrom n 1, rest, {loc with start := ploc.start, column := ploc.column})
  | (Token.Rational r, ploc) :: rest, loc =>
    (r, rest, {loc with start := ploc.start, column := ploc.column})
  | toks, loc => (ratFrom 1 1, toks, loc)

/-- The previous-token match of the `'τ'` branch.  Unlike the `'π'` branch,
the `tokens.pop()` of the Integer arm is commented out in the source: the
Integer literal's value is used as the multiplier and its span start is
absorbed, but the Integer token itself stays in the token list.  The Rational
arm does pop. -/
def tauTimesPrev : List (Token × Loc) → Loc → Rat × List (Token × Loc) × Loc
  | (Token.Integer n, ploc) :: rest, loc =>
    (ratFrom n 1, (Token.Integer n, ploc) :: rest,
      {loc with start := ploc.start, column := ploc.column})
  | (Token.Rational r, ploc) :: rest, loc =>
    (r, rest, {loc with start := ploc.start, column := ploc.column})
  | toks, loc => (ratFrom 1 1, toks, loc)

/-- The greedy bracket capture of the `'('` branch: consumes characters
tracking nesting depth (newlines update line/column and are not added to the
captured substring), returning the final cursor and, when a matching `)` was
found at depth zero, the captured substring and the remaining input. -/
def captureParen : List Char → Int → List Char → Loc → Loc × Option (List Char × List Char)
  | [], _, _, loc => (loc, none)
  | c :: rest, depth, subAcc, loc =>
    let loc := loc.bump1
    match c with
    | '(' => captureParen rest (depth + 1) (c :: subAcc) loc
    | ')' =>
      if depth - 1 = 0 then (loc, some (subAcc.reverse, rest))
      else captureParen rest (depth - 1) (c :: subAcc) loc
    | '\n' => captureParen rest depth subAcc {loc with line := loc.line + 1, column := 1}
    | _ => captureParen rest depth (c :: subAcc) loc

/-- The inner loop of post-processing pass 1: starting just after an
`_UnfinishedList` at position `i`, consume consecutive `_UnfinishedList`
tokens (appending their elements), then absorb the next token as the final
list element.  Whitespace there is a syntax error whose payload is the full
current token sequence (`done` is the already-processed prefix, reversed). -/
def collectUL (done : List (Token × Loc)) (uOrig : List (Token × Loc)) (li : Loc) :
    List (Token × Loc) → List (Token × Loc) →
    Except PErr (List (Token × Loc) × List (Token × Loc))
  | u, [] => .ok (u, [])
  | u, (t, l) :: rest =>
    match t with
    | .Spacing =>
      .error (.InvalidSymbol ' ', l,
        done.reverse ++ (Token.UnfinishedList uOrig, li) :: (Token.Spacing, l) :: rest)
    | .UnfinishedList u2 => collectUL done uOrig li (u ++ u2) rest
    | _ => .ok (u ++ [(t, l)], rest)

/-- Post-processing pass 1: each `_UnfinishedList` absorbs following
`_UnfinishedList`s and one trailing literal and becomes a finished `List`
token (of the element tokens without their spans). -/
def pass1F : Nat → List (Token × Loc) → List (Token × Loc) → Except PErr (List (Token × Loc))
  | 0, _, _ => .error (.InvalidSymbol '\x00', ⟨0, 0, 0, 0⟩, [])
  | _ + 1, done, [] => .ok done.reverse
  | fuel + 1, done, (t, l) :: rest =>
    match t with
    | .UnfinishedList u =>
      match collectUL done u l u rest with
      | .error e => .error e
      | .ok (elems, rest2) =>
        pass1F fuel ((Token.List (elems.map Prod.fst), l) :: done) rest2
    | _ => pass1F fuel ((t, l) :: done) rest

/-- Post-processing pass 3: each inverse marker absorbs the next token; a
marker with nothing following is the `LonelyInverse` syntax error. -/
def pass3 (done : List (Token × Loc)) : List (Token × Loc) → Except PErr (List (Token × Loc))
  | [] => .ok done.reverse
  | (t, l) :: rest =>
    match t with
    | .Inverse _ iloc =>
      match rest with
      | [] => .error (.LonelyInverse, iloc, done.reverse ++ [(t, l)])
      | (nt, _) :: rest2 => pass3 ((Token.Inverse nt iloc, iloc) :: done) rest2
    | _ => pass3 ((t, l) :: done) rest

/-- The three post-processing passes of `parse`, in source order: merge
unfinished lists, drop `Spacing`, resolve inverse markers. -/
def postProcess (ts : List (Token × Loc)) : Except PErr (List (Token × Loc)) := do
  let ts ← pass1F (ts.length + 1) [] ts
  let ts := ts.filter (fun p => match p.1 with | Token.Spacing => false | _ => true)
  pass3 [] ts

/-- The character-by-character scanning loop of `parse`.  `toks` is the token
sequence built so far, most recent first (the reverse of the source `Vec`); a
successful scan returns it still reversed, together with the final cursor.
The `'('` branch recursively runs the full `parse` (scan plus post-processing)
on the captured substring, threading the cursor. -/
def scan : Nat → List Char → Loc → List (Token × Loc) → PRes
  | 0, _, _, _ => .nofuel
  | _ + 1, [], loc, toks => .ok toks loc
  | fuel + 1, c :: rest, loc, toks =>
    -- push the produced token with the branch's final cursor, then advance
    let push := fun (tok : Token) (loc2 : Loc) (toks2 : List (Token × Loc)) (rest2 : List Char) =>
      scan fuel rest2 (advance c loc2) ((tok, loc2) :: toks2)
    if c = ' ' ∨ c = '\r' then
      push .Spacing loc toks rest
    else if c = '\n' then
      push .Spacing {loc with line := loc.line + 1, column := 1} toks rest
    else if c.isDigit then
      -- signed integer / rational literal; a preceding Minus token is absorbed
      match (match toks with
             | (Token.Minus, ploc) :: tl =>
               ((-1 : Int), tl, {loc with start := ploc.start, column := ploc.column})
             | _ => (1, toks, loc)) with
      | (sign, toks1, loc1) =>
        match scanDigits (digitVal c) loc1 rest with
        | (number, loc2, rest2) =>
          match rest2 with
          | '.' :: rest3 =>
            let loc3 := loc2.bump1
            match rest3 with
            | d :: rest4 =>
              if d.isDigit then
                match scanDecimal (digitVal d) 10 loc3.bump1 rest4 with
                | (decimal, den, loc5, rest5) =>
                  push (.Rational ((sign : Rat) * ratFrom (number * den + decimal) den))
                    loc5 toks1 rest5
              else
                -- lone trailing dot: undo the bump and emit the integer
                -- (without the sign, as in the source) leaving the dot unread
                push (.Integer number) loc2 toks1 rest2
            | [] => push (.Integer number) loc2 toks1 rest2
          | _ => push (.Integer (sign * number)) loc2 toks1 rest2
    else if c = 'i' then
      match iRealPrev toks loc with
      | (real, toks1, loc1) =>
        match (match rest with
               | '⁻' :: r2 => ((-1 : Int), Loc.bump1 loc1, r2)
               | _ => ((1 : Int), loc1, rest)) with
        | (sign, loc2, rest2) =>
          match rest2 with
          | '.' :: _ =>
            if sign = -1 then .err (.InvalidSymbol '⁻') loc2 toks1.reverse
            else push (.Complex (.ofRats real 1)) loc2 toks1 rest2
          | _ =>
            match (match rest2 with
                   | d :: r3 =>
                     if d.isDigit then (digitVal d, Loc.bump1 loc2, r3)
                     else ((1 : Int), loc2, rest2)
                   | [] => ((1 : Int), loc2, rest2)) with
            | (n0, loc3, rest3) =>
              match scanDigits n0 loc3 rest3 with
              | (number, loc4, rest4) =>
                match rest4 with
                | '.' :: rest5 =>
                  let loc5 := loc4.bump1
                  match rest5 with
                  | d2 :: rest6 =>
                    if d2.isDigit then
                      match scanDecimal (digitVal d2) 10 loc5.bump1 rest6 with
                      | (decimal, den, loc7, rest7) =>
                        push (.Complex (.ofRats real
                          ((sign : Rat) * ratFrom (number * den + decimal) den))) loc7 toks1 rest7
                    else
                      -- lone dot after the magnitude: the source sets
                      -- decimal := number, denominator := 1, yielding
                      -- (number * 1 + number) / 1, and leaves the dot unread
                      push (.Complex (.ofRats real
                        ((sign : Rat) * ratFrom (number * 1 + number) 1))) loc4 toks1 rest4
                  | [] =>
                    push (.Complex (.ofRats real
                      ((sign : Rat) * ratFrom (number * 1 + number) 1))) loc4 toks1 rest4
                | _ =>
                  push (.Complex (.ofRats real ((sign : Rat) * ratFrom number 1)))
                    loc4 toks1 rest4
    else if c = 'π' then
      match piTimesPrev toks loc with
      | (times, toks1, loc1) => push (.Pi times) loc1 toks1 rest
    else if c = 'τ' then
      match tauTimesPrev toks loc with
      | (times, toks1, loc1) => push (.Pi (2 * times)) loc1 toks1 rest
    else if c = '∞' then
      push .Infinity loc toks rest
    else if c = 'ε' then
      push .Epsilon loc toks rest
    else if c = '‿' then
      match (match toks with
             | (Token.Integer n, ploc) :: tl =>
               some (Token.Integer n, ploc, tl,
                 {loc with start := ploc.start, column := ploc.column})
             | (Token.Rational r, ploc) :: tl =>
               some (Token.Rational r, ploc, tl,
                 {loc with start := ploc.start, column := ploc.column})
             | (Token.Complex cc, ploc) :: tl =>
               some (Token.Complex cc, ploc, tl,
                 {loc with start := ploc.start, column := ploc.column})
             | _ => none) with
      | none => .err (.InvalidSymbol '‿') loc toks.reverse
      | some (value, vloc, tl, loc1) =>
        -- the check of the token two positions back (`get(len - 2)`); when it
        -- is an unfinished list the freshly popped value is discarded and the
        -- unfinished list itself loses its last element, as in the source
        match tl with
        | _ :: (Token.UnfinishedList u2, p2loc) :: _ =>
          push (.UnfinishedList u2.dropLast)
            {loc1 with start := p2loc.start, column := p2loc.column} tl rest
        | _ => push (.UnfinishedList [(value, vloc)]) loc1 tl rest
    else if c = '.' then
      push .Dup loc toks rest
    else if c = ',' then
      push .Pop loc toks rest
    else if c = '↔' then
      push .Flip loc toks rest
    else if c = '⁻' then
      match rest with
      | '¹' :: rest2 =>
        let loc2 := {loc with «end» := loc.«end» + '¹'.utf8Size, column := loc.column + 1}
        push (.Inverse .InvalidState loc2) loc2 toks rest2
      | _ => push .Minus loc toks rest
    else if c = '(' then
      match captureParen rest 1 [] loc with
      | (loc2, none) =>
        .err (.UnmatchedParenthesis false) {loc2 with «end» := loc2.start} toks.reverse
      | (loc2, some (sub, rest2)) =>
        match scan fuel sub loc2 [] with
        | .nofuel => .nofuel
        | .err e l p => .err e l p
        | .ok innerRev loc3 =>
          match postProcess innerRev.reverse with
          | .error (e, l, p) => .err e l p
          | .ok inner => push (.Function inner) loc3 toks rest2
    else if c = ')' then
      .err (.UnmatchedParenthesis false) loc toks.reverse
    else
      push (.FunctionCall c) loc toks rest

/-- `parser.rs` `parse`: scan, then the three post-processing passes. -/
def parse (input : List Char) (loc : Loc) : PRes :=
  match scan (input.length + 1) input loc [] with
  | .nofuel => .nofuel
  | .err e l p => .err e l p
  | .ok revToks loc2 =>
    match postProcess revToks.reverse with
    | .error (e, l, p) => .err e l p
    | .ok ts => .ok ts loc2

/-- `parse` on a string. -/
def parseStr (s : String) (loc : Loc) : PRes := parse s.toList loc

/-- The initial cursor of `main.rs`. -/
def loc0 : Loc := ⟨0, 0, 1, 1⟩

/-- The mnemonic table of `Formatter::new`, in source order (the commented-out
entries of the source are omitted, as they are in the compiled code). -/
def formatterSymbols : List (List Char × List Char) :=
  [("_".toList, "‿".toList),
   ("infinity".toList, "∞".toList),
   ("epsilon".toList, "ε".toList),
   ("pi".toList, "π".toList),
   ("tau".toList, "τ".toList),
   ("alpha".toList, "α".toList),
   ("iota".toList, "ι".toList),
   (":".toList, "↔".toList),
   ("`".toList, "⁻".toList),
   ("*".toList, "×".toList),
   ("%".toList, "÷".toList),
   ("pow".toList, "ⁿ".toList),
   ("croot".toList, "∛".toList),
   ("cbrt".toList, "∛".toList),
   ("sqrt".toList, "√".toList),
   ("root".toList, "√".toList),
   ("sin".toList, "◯".toList),
   ("inverse".toList, "⁻¹".toList)]

/-- Stable insertion by mnemonic length: equal-length entries keep their
relative order. -/
def insertByLen (x : List Char × List Char) :
    List (List Char × List Char) → List (List Char × List Char)
  | [] => [x]
  | y :: ys => if y.1.length ≤ x.1.length then y :: insertByLen x ys else x :: y :: ys

/-- The `sort_by` of `Formatter::new`: Rust's stable sort under a comparator
that orders by mnemonic length.  Despite the adjacent source comment reading
"Largest to smallest", the comparator returns `Greater` for longer first
operands, i.e. it sorts ascending — shortest first. -/
def sortByLen (l : List (List Char × List Char)) : List (List Char × List Char) :=
  l.foldl (fun acc x => insertByLen x acc) []

/-- Whether `pat` is a (character) prefix of the second list. -/
def startsWithPat : List Char → List Char → Bool
  | [], _ => true
  | _ :: _, [] => false
  | p :: ps, c :: cs => p == c && startsWithPat ps cs

/-- Rust `str::replace`: replace every non-overlapping occurrence of `pat`,
scanning left to right. -/
def replaceAllF : Nat → List Char → List Char → List Char → List Char
  | 0, _, _, s => s
  | _ + 1, _, _, [] => []
  | fuel + 1, pat, rep, c :: rest =>
    if pat ≠ [] ∧ startsWithPat pat (c :: rest) then
      rep ++ replaceAllF fuel pat rep ((c :: rest).drop pat.length)
    else
      c :: replaceAllF fuel pat rep rest

def replaceAll (pat rep s : List Char) : List Char := replaceAllF (s.length + 1) pat rep s

/-- `Formatter::format` under a given iteration order of the symbol map: the
replacements applied in sequence over the whole string.  The source sorts the
pairs by length and then stores them in a `HashMap`, iterating that map; a
`HashMap`'s iteration order is arbitrary (and unrelated to insertion order),
so the claims about the formatter are settled against explicit orders,
including the length-sorted order the code itself computes. -/
def formatWith (order : List (List Char × List Char)) (src : List Char) : List Char :=
  order.foldl (fun s p => replaceAll p.1 p.2 s) src

/-- C1: the claim says that an evaluation step reaching a bracketed
sub-program token with a List on top runs the bracket against a fresh stack
seeded from the list and folds the result back.  The evaluator's `Scope`
branch implements exactly that (third conjunct: duplicating inside the
bracket duplicates only the scope's own top element), but the parser emits
`Token::Function` for a bracketed sub-program (first conjunct) and the
evaluator's `Function` branch is `todo!()`, so evaluating the parse of
`"( . ) 2‿3‿4"` panics instead (second conjunct). -/
theorem C1_bracket_scope_folds_but_function_token_panics :
    parseStr "( . ) 2‿3‿4" loc0 =
      .ok [(.Function [(.Dup, ⟨5, 5, 1, 6⟩)], ⟨7, 7, 1, 8⟩),
           (.List [.Integer 2, .Integer 3, .Integer 4], ⟨9, 10, 1, 10⟩)] ⟨18, 18, 1, 13⟩ ∧
    Env.run [(.Function [(.Dup, ⟨5, 5, 1, 6⟩)], ⟨7, 7, 1, 8⟩),
             (.List [.Integer 2, .Integer 3, .Integer 4], ⟨9, 10, 1, 10⟩)] [] =
      .error (.panic "not implemented: function application") ∧
    Env.run [(.Scope [(.Dup, ⟨5, 5, 1, 6⟩)], ⟨7, 7, 1, 8⟩)]
        [.List [.Integer 2, .Integer 3, .Integer 4]] =
      .ok [.List [.Integer 2, .Integer 3, .Integer 4, .Integer 4]] :=
  ⟨rfl, rfl, rfl⟩

/-- C2: the parser maps `↔` to `Token::Flip` and the evaluator's `Flip`
branch looks up `'↔'` in `BUILTINS` with `unwrap_unchecked`, but the table is
keyed by `'↕'` (U+2195): the lookup misses (first conjunct) and the unchecked
unwrap of `None` is undefined behavior (last conjunct), for any stack depth.
The swap builtin itself, reachable as the ordinary operator `↕`, does
exchange the top two values and leaves deeper elements unchanged (third
conjunct). -/
theorem C2_flip_lookup_misses_builtin_table :
    BUILTINS '↔' = none ∧
    BUILTINS '↕' = some (Builtin.new Builtins.flip Builtins.flip 2) ∧
    (∀ (a b : Value) (rest : Stack),
      (Builtin.new Builtins.flip Builtins.flip 2).call (a :: b :: rest) =
        .ok (b :: a :: rest)) ∧
    parseStr "↔ 1 2" loc0 =
      .ok [(.Flip, ⟨0, 0, 1, 1⟩), (.Integer 1, ⟨4, 4, 1, 3⟩),
           (.Integer 2, ⟨6, 6, 1, 5⟩)] ⟨7, 7, 1, 6⟩ ∧
    Env.run [(.Flip, ⟨0, 0, 1, 1⟩), (.Integer 1, ⟨4, 4, 1, 3⟩),
             (.Integer 2, ⟨6, 6, 1, 5⟩)] [] =
      .error (.panic "undefined behavior: unwrap_unchecked on None") := by
  refine ⟨rfl, rfl, ?_, rfl, rfl⟩
  intro a b rest
  simp [Builtin.call, Builtin.new, Builtins.flip]

/-- C3: `reciprocal(0)` is the `DivideByZero` poison value (first conjunct),
but `div` multiplies it into `x` before the evaluator's poison check can see
it, and `Mul` has no arm for `InvalidState`, hitting the `todo!()` catch-all
(second conjunct): evaluating `"÷ 0 5"` therefore panics instead of returning
the `DivideByZero` error at the divide token's span (last conjunct). -/
theorem C3_divide_by_zero_panics_in_mul :
    (Value.Integer 0).reciprocal = .ok (.InvalidState .DivideByZero) ∧
    Value.mul (.Integer 5) (.InvalidState .DivideByZero) =
      .error "not implemented: Mul" ∧
    parseStr "÷ 0 5" loc0 =
      .ok [(.FunctionCall '÷', ⟨0, 0, 1, 1⟩), (.Integer 0, ⟨3, 3, 1, 3⟩),
           (.Integer 5, ⟨5, 5, 1, 5⟩)] ⟨6, 6, 1, 6⟩ ∧
    Env.run [(.FunctionCall '÷', ⟨0, 0, 1, 1⟩), (.Integer 0, ⟨3, 3, 1, 3⟩),
             (.Integer 5, ⟨5, 5, 1, 5⟩)] [] =
      .error (.panic "not implemented: Mul") :=
  ⟨rfl, rfl, rfl, rfl⟩

/-- C4: parsing an unmatched `(` reports `UnmatchedParenthesis(false)` — not
`(true)` as the claim (and the doc comment in `err.rs`, "true if `(`") says —
at the opening offset; a stray `)` also reports `UnmatchedParenthesis(false)`
(which is the correct half of the claim). -/
theorem C4_unmatched_paren_is_always_false :
    parseStr "(" loc0 = .err (.UnmatchedParenthesis false) ⟨0, 0, 1, 1⟩ [] ∧
    parseStr "(1" loc0 = .err (.UnmatchedParenthesis false) ⟨0, 0, 1, 2⟩ [] ∧
    parseStr ")" loc0 = .err (.UnmatchedParenthesis false) ⟨0, 0, 1, 1⟩ [] :=
  ⟨rfl, rfl, rfl⟩

/-- C9: the formatter's replacement order is not longest-match-first.  The
comparator of `Formatter::new` sorts the mnemonics ascending by length
(shortest first, third conjunct — despite the source comment "Largest to
smallest"), and the sorted list is then stored in a `HashMap` whose iteration
order is arbitrary.  Under the length-ascending order the code itself
computes, `"croot"` is rewritten to `"c√"` (the shorter substring `"root"` is
replaced first); longest-match-first replacement (descending order) would
give `"∛"`. -/
theorem C9_formatter_not_longest_match_first :
    formatWith (sortByLen formatterSymbols) "croot".toList = "c√".toList ∧
    formatWith (sortByLen formatterSymbols).reverse "croot".toList = "∛".toList ∧
    (sortByLen formatterSymbols).map (fun p => String.mk p.1) =
      ["_", ":", "`", "*", "%", "pi", "tau", "pow", "sin", "iota", "cbrt",
       "sqrt", "root", "alpha", "croot", "epsilon", "inverse", "infinity"] :=
  ⟨rfl, rfl, rfl⟩

/-- C10: whitespace blocks literal merging.  At scan time the transient
`Spacing` token is the immediately preceding token, and both the `'i'` branch
and the `'π'` branch match it in their default arm: the real part defaults to
`Rational::from((0,1))` (that is, 0) and the pi multiplier to
`Rational::from((1,1))` (that is, 1), with the token list — and hence the
numeric literal, which stays in the output once `Spacing` is filtered —
untouched (first two conjuncts, for every token list headed by `Spacing`).
End to end: `"2 i3"` keeps `2` as a separate token and yields the complex
literal `0 + 3i`, and `"2 π"` keeps `2` and yields `Pi(1)`, whereas the
unspaced `"2i3"` merges into the single complex literal `2 + 3i`. -/
theorem C10_spacing_blocks_merging :
    (∀ (l loc : Loc) (ts : List (Token × Loc)),
      iRealPrev ((Token.Spacing, l) :: ts) loc = (ratFrom 0 1, (Token.Spacing, l) :: ts, loc)) ∧
    (∀ (l loc : Loc) (ts : List (Token × Loc)),
      piTimesPrev ((Token.Spacing, l) :: ts) loc = (ratFrom 1 1, (Token.Spacing, l) :: ts, loc)) ∧
    ratFrom 0 1 = 0 ∧ ratFrom 1 1 = 1 ∧
    parseStr "2 i3" loc0 =
      .ok [(.Integer 2, ⟨0, 0, 1, 1⟩), (.Complex (.ofRats 0 3), ⟨2, 3, 1, 4⟩)] ⟨4, 4, 1, 5⟩ ∧
    parseStr "2 π" loc0 =
      .ok [(.Integer 2, ⟨0, 0, 1, 1⟩), (.Pi 1, ⟨2, 2, 1, 3⟩)] ⟨4, 4, 1, 4⟩ ∧
    parseStr "2i3" loc0 = .ok [(.Complex (.ofRats 2 3), ⟨0, 2, 1, 2⟩)] ⟨3, 3, 1, 3⟩ := by
  refine ⟨fun _ _ _ => rfl, fun _ _ _ => rfl, by norm_num [ratFrom], by norm_num [ratFrom],
    ?_, ?_, ?_⟩
  · have h : parseStr "2 i3" loc0 =
        .ok [(.Integer 2, ⟨0, 0, 1, 1⟩),
             (.Complex (.ofRats (ratFrom 0 1) ((1 : Rat) * ratFrom 3 1)), ⟨2, 3, 1, 4⟩)]
          ⟨4, 4, 1, 5⟩ := rfl
    rw [h]
    norm_num [ratFrom]
  · have h : parseStr "2 π" loc0 =
        .ok [(.Integer 2, ⟨0, 0, 1, 1⟩), (.Pi (ratFrom 1 1), ⟨2, 2, 1, 3⟩)] ⟨4, 4, 1, 4⟩ := rfl
    rw [h]
    norm_num [ratFrom]
  · have h : parseStr "2i3" loc0 =
        .ok [(.Complex (.ofRats (ratFrom 2 1) ((1 : Rat) * ratFrom 3 1)), ⟨0, 2, 1, 2⟩)]
          ⟨3, 3, 1, 3⟩ := rfl
    rw [h]
    norm_num [ratFrom]

/-- C6 counterexample: parsing `"3τ"` yields the Pi token with multiplier 6
(2 × 3, as the claim says) but the consumed Integer literal `3` does remain as
a separate token in the output — the `tokens.pop()` of the τ branch's Integer
arm is commented out in the source — refuting "the consumed literal does not
also remain as a separate token". -/
theorem C6_counterexample_integer_literal_remains :
    parseStr "3τ" loc0 =
      .ok [(.Integer 3, ⟨0, 0, 1, 1⟩), (.Pi 6, ⟨0, 1, 1, 1⟩)] ⟨3, 3, 1, 2⟩ := by
  have h : parseStr "3τ" loc0 =
      .ok [(.Integer 3, ⟨0, 0, 1, 1⟩), (.Pi (2 * ratFrom 3 1), ⟨0, 1, 1, 1⟩)] ⟨3, 3, 1, 2⟩ := rfl
  rw [h]
  norm_num [ratFrom]

/-- C6 as amended: `τ` yields a Pi token with multiplier 2 × the preceding
literal (defaulting to 1, giving Pi(2), with no preceding numeric token), and
it consumes an immediately preceding Rational literal; but an immediately
preceding Integer literal is only read, not consumed — its span start is
absorbed while the Integer token itself stays in the token list (first
conjunct).  `"3.5τ"` consumes the rational and yields the single token Pi(7);
`"τ"` yields Pi(2). -/
theorem C6_amended_tau_merging :
    (∀ (n : Int) (ploc : Loc) (toks : List (Token × Loc)) (loc : Loc),
      tauTimesPrev ((Token.Integer n, ploc) :: toks) loc =
        (ratFrom n 1, (Token.Integer n, ploc) :: toks,
          {loc with start := ploc.start, column := ploc.column})) ∧
    (∀ (r : Rat) (ploc : Loc) (toks : List (Token × Loc)) (loc : Loc),
      tauTimesPrev ((Token.Rational r, ploc) :: toks) loc =
        (r, toks, {loc with start := ploc.start, column := ploc.column})) ∧
    (∀ loc : Loc, tauTimesPrev [] loc = (ratFrom 1 1, [], loc)) ∧
    parseStr "3.5τ" loc0 = .ok [(.Pi 7, ⟨0, 3, 1, 3⟩)] ⟨5, 5, 1, 4⟩ ∧
    parseStr "τ" loc0 = .ok [(.Pi 2, ⟨0, 0, 1, 1⟩)] ⟨2, 2, 1, 2⟩ := by
  refine ⟨fun _ _ _ _ => rfl, fun _ _ _ _ => rfl, fun _ => rfl, ?_, ?_⟩
  · have h : parseStr "3.5τ" loc0 =
        .ok [(.Pi (2 * ((1 : Rat) * ratFrom 35 10)), ⟨0, 3, 1, 3⟩)] ⟨5, 5, 1, 4⟩ := rfl
    rw [h]
    norm_num [ratFrom]
  · have h : parseStr "τ" loc0 =
        .ok [(.Pi (2 * ratFrom 1 1), ⟨0, 0, 1, 1⟩)] ⟨2, 2, 1, 2⟩ := rfl
    rw [h]
    norm_num [ratFrom]

/-- C5 counterexample: multiplying the Pi-multiple π (coefficient 1, positive
exponent) by the Integer 2 yields the symbolic Pi-multiple 2π — not a Float —
refuting "the result is never a symbolic Pi-multiple" for `mul`: the `Mul`
arms for `Pi × Integer` and `Pi × Rational` scale the coefficient exactly and
keep the value symbolic. -/
theorem C5_counterexample_mul_pi_stays_symbolic :
    Value.mul (.Pi 1 1) (.Integer 2) = .ok (.Pi 2 1) := by
  have h : Value.mul (.Pi 1 1) (.Integer 2) =
      .ok (.Pi ((1 : Rat) * ((2 : Int) : Rat)) 1) := rfl
  rw [h]
  norm_num

/-- C5 as amended: `add` on a Pi-multiple and an Integer/Rational lowers the
pi-multiple to its float approximation (coefficient × π or π⁻¹) and returns a
Float, and with a Complex returns a Complex — in both operand orders; but
`mul` with an Integer/Rational keeps the value a symbolic Pi-multiple with
the coefficient exactly scaled (the π factor is never dropped either way),
and only `mul` with a Complex lowers to a Complex. -/
theorem C5_amended_pi_add_lowers_mul_scales :
    (∀ (r : Rat) (n : Int),
      Value.add (.Pi r 1) (.Integer n) =
        .ok (.Float (.add (.mul (.div (.ofInt r.num) (.ofInt r.den)) .pi) (.ofInt n)))) ∧
    (∀ (r : Rat) (n : Int),
      Value.add (.Integer n) (.Pi r 1) =
        .ok (.Float (.add (.mul (.div (.ofInt r.num) (.ofInt r.den)) .pi) (.ofInt n)))) ∧
    (∀ (r : Rat) (n : Int),
      Value.add (.Pi r (-1)) (.Integer n) =
        .ok (.Float (.add (.mul (.div (.ofInt r.num) (.ofInt r.den)) (.recip .pi)) (.ofInt n)))) ∧
    (∀ (r q : Rat),
      Value.add (.Pi r 1) (.Rational q) =
        .ok (.Float (.add (.mul (.div (.ofInt r.num) (.ofInt r.den)) .pi)
          (.div (.ofInt q.num) (.ofInt q.den))))) ∧
    (∀ (r : Rat) (c : CC),
      Value.add (.Pi r 1) (.Complex c) =
        .ok (.Complex (.addFloat (.mul (.div (.ofInt r.num) (.ofInt r.den)) .pi) c))) ∧
    (∀ (r : Rat) (e n : Int),
      Value.mul (.Pi r e) (.Integer n) = .ok (.Pi (r * (n : Rat)) e)) ∧
    (∀ (r : Rat) (e n : Int),
      Value.mul (.Integer n) (.Pi r e) = .ok (.Pi (r * (n : Rat)) e)) ∧
    (∀ (r q : Rat) (e : Int),
      Value.mul (.Pi r e) (.Rational q) = .ok (.Pi (r * q) e)) ∧
    (∀ (r : Rat) (c : CC),
      Value.mul (.Pi r 1) (.Complex c) =
        .ok (.Complex (.mulFloat (.mul (.div (.ofInt r.num) (.ofInt r.den)) .pi) c))) :=
  ⟨fun _ _ => rfl, fun _ _ => rfl, fun _ _ => rfl, fun _ _ => rfl, fun _ _ => rfl,
   fun _ _ _ => rfl, fun _ _ _ => rfl, fun _ _ _ => rfl, fun _ _ => rfl⟩

/-- C7 counterexample: `pow(Integer(0), Integer(-1))` does not return the
"exact Rational 1 / 0^1" (no such rational exists) and does not fail with the
exponent check: the source computes `0.pow(1) = 0` and then
`Rational::from((1, 0))`, which panics in rug on the zero denominator — so
"it never fails in any other way" is false. -/
theorem C7_counterexample_pow_zero_negative :
    Value.pow (.Integer 0) (.Integer (-1)) =
      .error "panic: zero denominator in rational construction" := rfl

/-- C7 as amended: for m ≥ 0, `pow(Integer n, Integer m)` is the exact
Integer n^m when m < 2^32 and the `ExponentTooBig` invalid-state otherwise;
for m < 0 with −m < 2^32 it is the exact Rational 1/n^(−m) provided n ≠ 0,
and `ExponentTooBig` when −m ≥ 2^32; but for n = 0 with a negative in-range
exponent it panics constructing a rational with denominator zero (rather than
failing in any reported way). -/
theorem C7_amended_pow_integer (n m : Int) :
    (0 ≤ m → m < 4294967296 →
      Value.pow (.Integer n) (.Integer m) = .ok (.Integer (n ^ m.toNat))) ∧
    (0 ≤ m → 4294967296 ≤ m →
      Value.pow (.Integer n) (.Integer m) = .ok (.InvalidState (.ExponentTooBig m))) ∧
    (m < 0 → -m < 4294967296 → n ≠ 0 →
      Value.pow (.Integer n) (.Integer m) = .ok (.Rational (ratFrom 1 (n ^ (-m).toNat)))) ∧
    (m < 0 → 4294967296 ≤ -m →
      Value.pow (.Integer n) (.Integer m) = .ok (.InvalidState (.ExponentTooBig m))) ∧
    (m < 0 → -m < 4294967296 → n = 0 →
      Value.pow (.Integer n) (.Integer m) =
        .error "panic: zero denominator in rational construction") := by
  refine ⟨?_, ?_, ?_, ?_, ?_⟩
  · intro h1 h2
    simp only [Value.pow, powF]
    rw [if_neg (by omega), if_pos h2]
  · intro h1 h2
    simp only [Value.pow, powF]
    rw [if_neg (by omega), if_neg (by omega)]
  · intro h1 h2 h3
    simp only [Value.pow, powF]
    rw [if_pos h1, if_pos h2, if_neg (pow_ne_zero _ h3)]
  · intro h1 h2
    simp only [Value.pow, powF]
    rw [if_pos h1, if_neg (by omega)]
  · intro h1 h2 h3
    subst h3
    simp only [Value.pow, powF]
    rw [if_pos h1, if_pos h2, if_pos (zero_pow (by omega : (-m).toNat ≠ 0))]

/-- C7 witness: the amended theorem applied at n = 2, m = 3 and m = −3. -/
theorem C7_amended_pow_integer_witness :
    (0 : Int) ≤ 3 ∧ (3 : Int) < 4294967296 ∧
    Value.pow (.Integer 2) (.Integer 3) = .ok (.Integer 8) ∧
    (-3 : Int) < 0 ∧ (2 : Int) ≠ 0 ∧
    Value.pow (.Integer 2) (.Integer (-3)) = .ok (.Rational (ratFrom 1 8)) := by
  refine ⟨by norm_num, by norm_num, ?_, by norm_num, by norm_num, ?_⟩
  · have h := (C7_amended_pow_integer 2 3).1 (by norm_num) (by norm_num)
    simpa using h
  · have h := (C7_amended_pow_integer 2 (-3)).2.2.1 (by norm_num) (by norm_num) (by norm_num)
    simpa using h

/-- The double reciprocal of C8: `reciprocal(reciprocal(v))`, with the panic
channel propagated. -/
def recip2 (v : Value) : Except Panic Value := v.reciprocal >>= Value.reciprocal

/-- Variant discriminator: whether a Value is the `Integer` variant. -/
def Value.isIntegerKind : Value → Bool
  | .Integer _ => true
  | _ => false

/-- C8 counterexample: for the nonzero Integer 2, the double reciprocal is
the Rational 2 — numerically equal but a different Value than `Integer 2` —
because `reciprocal` of an Integer produces a Rational and `reciprocal` of a
Rational stays Rational. -/
theorem C8_counterexample_integer_becomes_rational :
    recip2 (.Integer 2) = .ok (.Rational 2) ∧
    (Value.Rational 2).isIntegerKind = false ∧ (Value.Integer 2).isIntegerKind = true := by
  refine ⟨?_, rfl, rfl⟩
  norm_num [recip2, Value.reciprocal, Value.types, typesF, Value.is_zero, ratFrom]

/-- C8 as amended: the double reciprocal is the identity on nonzero Rational
values, on Infinity and Epsilon of either sign, and on Pi-multiples and
E-values with nonzero coefficient; on a nonzero Integer n it returns the
numerically equal Rational n (a different Value variant); zero short-circuits
to the divide-by-zero invalid state as the claim says.  (Float and Complex go
through the 128-bit float reciprocal twice and are not exact in general;
`Undefined` falls through to a type-mismatch invalid state.) -/
theorem C8_amended_double_reciprocal :
    (∀ q : Rat, q ≠ 0 → recip2 (.Rational q) = .ok (.Rational q)) ∧
    (∀ n : Int, n ≠ 0 → recip2 (.Integer n) = .ok (.Rational (n : Rat))) ∧
    (∀ s : Int, recip2 (.Infinity s) = .ok (.Infinity s)) ∧
    (∀ s : Int, recip2 (.Epsilon s) = .ok (.Epsilon s)) ∧
    (∀ (q : Rat) (e : Int), q ≠ 0 → recip2 (.Pi q e) = .ok (.Pi q e)) ∧
    (∀ (q : Rat) (e : Int), q ≠ 0 → recip2 (.E q e) = .ok (.E q e)) ∧
    (Value.Integer 0).reciprocal = .ok (.InvalidState .DivideByZero) := by
  refine ⟨?_, ?_, fun _ => rfl, fun _ => rfl, ?_, ?_, rfl⟩
  · intro q hq
    norm_num [recip2, Value.reciprocal, Value.types, typesF, Value.is_zero, hq, inv_eq_zero]
  · intro n hn
    have hc : (n : Rat) ≠ 0 := Int.cast_ne_zero.mpr hn
    norm_num [recip2, Value.reciprocal, Value.types, typesF, Value.is_zero, ratFrom, hn, hc,
      one_div, inv_eq_zero, inv_inv]
  · intro q e hq
    norm_num [recip2, Value.reciprocal, Value.types, typesF, Value.is_zero, hq, inv_eq_zero]
  · intro q e hq
    norm_num [recip2, Value.reciprocal, Value.types, typesF, Value.is_zero, hq, inv_eq_zero]

/-- C8 witness: the amended theorem applied at Rational 3 and Integer 2. -/
theorem C8_amended_double_reciprocal_witness :
    (3 : Rat) ≠ 0 ∧ recip2 (.Rational 3) = .ok (.Rational 3) ∧
    (2 : Int) ≠ 0 ∧ recip2 (.Integer 2) = .ok (.Rational 2) := by
  refine ⟨by norm_num, C8_amended_double_reciprocal.1 3 (by norm_num), by norm_num, ?_⟩
  have h := C8_amended_double_reciprocal.2.1 2 (by norm_num)
  simpa using h
